import Mathlib

/-!
Verification of the SentinelBrowser repository: a shallow embedding of the
orchestration state machine (src/agent/graph.ts, src/agent/state.ts, the
action-executor nodes and the heal node), the result graders
(src/eval/graders.ts) and the pass-at-k metrics (src/eval/metrics.ts),
together with theorems settling the specification claims about them.

Modelling conventions:
- JavaScript numbers that hold counts or durations are modelled as Nat;
  the statistical estimator, whose value is a ratio, is modelled over Rat.
- JSON values (the extracted-data objects) are an inductive Json type;
  JavaScript undefined is Option.none, JSON null is Json.null.
- Action.type is a String, as at runtime the planner output is parsed JSON
  that is never validated against the zod enum, so arbitrary type strings
  can reach the router switch.
- Regular-expression testing (checkMatches) is abstracted as an oracle
  String -> Bool, since the claims are about dispatch and path resolution,
  not regex semantics.
- Browser-derived informational fields (url, pageTitle, pageContent) and
  timestamps are not represented: no claim references them.  Nondeterminism
  of the browser and LLM collaborators is modelled by oracle streams of
  executor outcomes and heal outcomes consumed by the state machine.
-/

namespace Sentinel

/-! ## JSON values (the extracted-data model of graders.ts) -/

inductive Json where
  | str (s : String)
  | num (n : Int)
  | jbool (b : Bool)
  | null
  | arr (xs : List Json)
  | obj (fields : List (String × Json))

/-- JSON.stringify escaping for one character inside a string literal. -/
def escapeChar (c : Char) : String :=
  if c = '"' then "\\\""
  else if c = '\\' then "\\\\"
  else if c = '\n' then "\\n"
  else if c = '\r' then "\\r"
  else if c = '\t' then "\\t"
  else if c.toNat < 32 then
    "\\u00" ++ String.singleton (Nat.digitChar (c.toNat / 16))
      ++ String.singleton (Nat.digitChar (c.toNat % 16))
  else String.singleton c

def escapeString (s : String) : String :=
  "\"" ++ String.join (s.data.map escapeChar) ++ "\""

mutual

/-- JSON.stringify on the Json model (object keys keep insertion order,
as JavaScript does). -/
def stringify : Json → String
  | .str s => escapeString s
  | .num n => toString n
  | .jbool b => if b then "true" else "false"
  | .null => "null"
  | .arr xs => "[" ++ stringifyList xs ++ "]"
  | .obj fs => "\x7b" ++ stringifyFields fs ++ "\x7d"

def stringifyList : List Json → String
  | [] => ""
  | [x] => stringify x
  | x :: y :: rest => stringify x ++ "," ++ stringifyList (y :: rest)

def stringifyFields : List (String × Json) → String
  | [] => ""
  | [(k, v)] => escapeString k ++ ":" ++ stringify v
  | (k, v) :: p :: rest =>
      escapeString k ++ ":" ++ stringify v ++ "," ++ stringifyFields (p :: rest)

end

/-! ## graders.ts -/

/-- JavaScript's String.prototype.toLowerCase, restricted to the
character-wise lowering Lean provides. -/
def lowerStr (s : String) : String := String.mk (s.data.map Char.toLower)

/-- Substring membership on character lists: does the needle occur as a
contiguous run inside the haystack?  Mirrors String.prototype.includes. -/
def containsSub : List Char → List Char → Bool
  | [], needle => needle.isEmpty
  | h :: t, needle => needle.isPrefixOf (h :: t) || containsSub t needle

/-- hay.toLowerCase().includes(needle.toLowerCase()) -/
def containsCI (hay needle : String) : Bool :=
  containsSub (lowerStr hay).data (lowerStr needle).data

/-- Decimal value of a digit string. -/
def digitsVal (cs : List Char) : Nat :=
  cs.foldl (fun acc c => acc * 10 + (c.toNat - 48)) 0

/-- A canonical array index as JavaScript property lookup sees it: a
non-empty digit string that round-trips through its numeric value. -/
def parseIndex (s : String) : Option Nat :=
  if s.data.isEmpty then none
  else if s.data.all Char.isDigit then
    if toString (digitsVal s.data) = s then some (digitsVal s.data) else none
  else none

/-- Property access arr[part] on a JavaScript array value. -/
def arrGet (xs : List Json) (part : String) : Option Json :=
  if part = "length" then some (Json.num xs.length)
  else
    match parseIndex part with
    | some i => xs.get? i
    | none => none

/-- Property access on the current value for one path segment, with the
guards getNestedField performs before each access: null and undefined
yield undefined, non-objects yield undefined. -/
def jsGet (cur : Option Json) (part : String) : Option Json :=
  match cur with
  | none => none
  | some j =>
    match j with
    | .null => none
    | .obj fs => (fs.find? (fun p => p.1 = part)).map Prod.snd
    | .arr xs => arrGet xs part
    | _ => none

/-- String.prototype.split('.') on the character list: always at least
one (possibly empty) group, a separator starts a fresh group. -/
def splitOnDot : List Char → List (List Char)
  | [] => [[]]
  | c :: rest =>
    let r := splitOnDot rest
    if c = '.' then [] :: r
    else
      match r with
      | [] => [[c]]
      | g :: gs => (c :: g) :: gs

/-- getNestedField of graders.ts: split the path on dots and walk. -/
def getNestedField (obj : List (String × Json)) (path : String) : Option Json :=
  ((splitOnDot path.data).map String.mk).foldl jsGet (some (Json.obj obj))

/-- The string a grader compares an array element or scalar against:
the value itself for strings, its JSON serialization otherwise. -/
def itemText : Json → String
  | .str s => s
  | j => stringify j

/-- checkContains of graders.ts. -/
def checkContains (data : Option (List (String × Json))) (field value : String) : Bool :=
  match data with
  | none => false
  | some d =>
    match getNestedField d field with
    | none => false
    | some (.str s) => containsCI s value
    | some (.arr xs) => xs.any (fun item => containsCI (itemText item) value)
    | some fv => containsCI (stringify fv) value

/-- checkEquals of graders.ts.  Note the string branch is the strict
triple-equals: no case folding. -/
def checkEquals (data : Option (List (String × Json))) (field value : String) : Bool :=
  match data with
  | none => false
  | some d =>
    match getNestedField d field with
    | none => false
    | some (.str s) => s = value
    | some fv => stringify fv = value

/-- checkMatches of graders.ts, with regex.test abstracted as the oracle
rTest taking the pattern and the subject string. -/
def checkMatches (rTest : String → String → Bool)
    (data : Option (List (String × Json))) (field value : String) : Bool :=
  match data with
  | none => false
  | some d =>
    match getNestedField d field with
    | none => false
    | some (.str s) => rTest value s
    | some (.arr xs) => xs.any (fun item => rTest value (itemText item))
    | some fv => rTest value (stringify fv)

/-! ## Core data types (src/types/index.ts) -/

/-- A planned browser action.  The type field is a String because planner
output is JSON.parse-cast without zod validation, so any string can occur. -/
structure Action where
  type : String
  target : Option String
  value : Option String
deriving DecidableEq, Repr

/-- One executor attempt recorded in the accumulated results. -/
structure StepResult where
  action : Action
  success : Bool
  error : Option String
  duration : Nat
  screenshot : Option String
  healingUsed : Bool
deriving DecidableEq, Repr

/-- One appended entry of the healing history. -/
structure HealingAttempt where
  attemptNumber : Nat
  originalError : String
  strategy : String
  elementFound : Bool
  newSelector : Option String
  screenshot : String
deriving DecidableEq, Repr

/-- The final task result produced by the finalize node.  data is optional
because the TypeScript field is optional and graders guard for it. -/
structure TaskResult where
  success : Bool
  data : Option (List (String × Json))
  steps : List StepResult
  healingAttempts : List HealingAttempt
  duration : Nat
  screenshots : List String

/-- The expected outcome a grader checks; type is the runtime string tag. -/
structure ExpectedOutcome where
  type : String
  field : Option String
  value : Option String
deriving DecidableEq, Repr

/-- JavaScript truthiness test used by gradeResult on the optional field
and value: undefined and the empty string are falsy. -/
def optFalsy : Option String → Bool
  | none => true
  | some s => s = ""

/-- gradeResult of graders.ts. -/
def gradeResult (rTest : String → String → Bool)
    (result : Option TaskResult) (expected : ExpectedOutcome) : Bool :=
  match result with
  | none => false
  | some r =>
    if !r.success then false
    else
      match expected.type with
      | "exists" =>
          r.success && (0 < (r.data.getD []).length || 0 < r.steps.length)
      | "contains" =>
          if optFalsy expected.field || optFalsy expected.value then r.success
          else checkContains r.data (expected.field.getD "") (expected.value.getD "")
      | "equals" =>
          if optFalsy expected.field || optFalsy expected.value then r.success
          else checkEquals r.data (expected.field.getD "") (expected.value.getD "")
      | "matches" =>
          if optFalsy expected.field || optFalsy expected.value then r.success
          else checkMatches rTest r.data (expected.field.getD "") (expected.value.getD "")
      | _ => r.success

/-! ## metrics.ts -/

/-- calculatePassAtK: true iff at least one of the first k attempts
succeeded. -/
def calculatePassAtK (results : List Bool) (k : Nat) : Bool :=
  (results.take k).any (fun b => b)

/-- The running-product loop of estimatePassAtK, as a left fold exactly
mirroring the for-loop over i = 0 .. k-1. -/
def estRatio (n c k : Nat) : ℚ :=
  (List.range k).foldl
    (fun acc (i : Nat) =>
      acc * (((n : ℚ) - (c : ℚ) - (i : ℚ)) / ((n : ℚ) - (i : ℚ)))) 1

/-- estimatePassAtK of metrics.ts, over exact rationals. -/
def estimatePassAtK (n c k : Nat) : ℚ :=
  if n < k then (if 0 < c then 1 else 0)
  else if c = 0 then 0
  else if n ≤ c then 1
  else 1 - estRatio n c k

/-! ## Agent state machine (src/agent/state.ts, src/agent/graph.ts,
src/agent/nodes/\*.ts) -/

/-- The channels of BrowserAgentState that the claims depend on.  List
channels model the accumulate reducers; scalar channels model the
replace reducers. -/
structure AgentState where
  currentStep : Nat
  totalSteps : Nat
  actions : List Action
  results : List StepResult
  lastError : Option String
  healingAttempts : Nat
  healingHistory : List HealingAttempt
  currentAction : Option Action
  extractedData : List (String × Json)
  finalResult : Option TaskResult
  needsHealing : Bool
  isComplete : Bool
  screenshot : String
  healingExhausted : Bool
  failedSteps : Nat

/-- Annotation defaults of state.ts. -/
def initialState : AgentState where
  currentStep := 0
  totalSteps := 0
  actions := []
  results := []
  lastError := none
  healingAttempts := 0
  healingHistory := []
  currentAction := none
  extractedData := []
  finalResult := none
  needsHealing := false
  isComplete := false
  screenshot := ""
  healingExhausted := false
  failedSteps := 0

/-- The graph nodes, plus a terminal done marker for END. -/
inductive Node where
  | plan
  | router
  | navigate
  | click
  | fill
  | extract
  | heal
  | success
  | finalize
  | done
deriving DecidableEq, Repr

/-- What one executor invocation did in the browser, as observed by the
node code: either the action completed (carrying duration, screenshot and,
for extract, the parsed data object), or it threw. -/
inductive ExecOutcome where
  | ok (duration : Nat) (screenshot : String) (data : List (String × Json))
  | failed (error : String) (duration : Nat) (screenshot : String)

/-- The detection strategies a heal invocation can succeed with. -/
inductive HealStrategy where
  | vision
  | scroll
  | wait
deriving DecidableEq, Repr

def strategyName : HealStrategy → String
  | .vision => "vision-redetection"
  | .scroll => "scroll-and-detect"
  | .wait => "wait-and-detect"

/-- What one non-exhausted heal invocation observed: some strategy found
an alternative selector with confidence above threshold, none did, or the
attempt itself threw. -/
inductive HealOutcome where
  | found (strategy : HealStrategy) (selector : String) (screenshot : String)
  | noneFound (screenshot : String)
  | threw

/-- The ...prev merge of the extractedData reducer: keys of next override
prev in place, genuinely new keys of next are appended. -/
def mergeObj (prev next : List (String × Json)) : List (String × Json) :=
  (prev.map (fun p =>
    match next.find? (fun q => q.1 = p.1) with
    | some q => (p.1, q.2)
    | none => p))
  ++ next.filter (fun q => !(prev.any (fun p => p.1 = q.1)))

/-- The plan node: the planner's action list is appended by the actions
reducer; totalSteps and the cursor are replaced. -/
def planNode (planned : List Action) (s : AgentState) : AgentState :=
  { s with
    actions := s.actions ++ planned
    totalSteps := planned.length
    currentStep := 0 }

/-- The router node: mark completion once the cursor reaches totalSteps,
otherwise select the current action and clear needsHealing. -/
def routerNode (s : AgentState) : AgentState :=
  if s.totalSteps ≤ s.currentStep then { s with isComplete := true }
  else
    { s with
      currentAction := s.actions.get? s.currentStep
      needsHealing := false }

/-- The conditional edge out of the router: finalize when complete or no
current action, else dispatch on the action-type string; the default
branch skips unknown actions straight to success. -/
def routerEdge (s : AgentState) : Node :=
  if s.isComplete then .finalize
  else
    match s.currentAction with
    | none => .finalize
    | some a =>
      if a.type = "navigate" then .navigate
      else if a.type = "click" then .click
      else if a.type = "fill" then .fill
      else if a.type = "extract" then .extract
      else .success

/-- The conditional edge out of every action executor. -/
def execEdge (s : AgentState) : Node :=
  if s.needsHealing then .heal else .success

/-- The conditional edge out of heal: exhausted or healed runs advance,
otherwise only click and fill actions are re-dispatched for a retry. -/
def healEdge (maxRetries : Nat) (s : AgentState) : Node :=
  if maxRetries ≤ s.healingAttempts || !s.needsHealing then .success
  else
    match s.currentAction with
    | none => .success
    | some a =>
      if a.type = "click" then .click
      else if a.type = "fill" then .fill
      else .success

/-- The success node: advance the cursor and reset the healing state. -/
def successNode (s : AgentState) : AgentState :=
  { s with
    currentStep := s.currentStep + 1
    healingAttempts := 0
    needsHealing := false }

/-- The TaskResult the finalize node builds from the accumulated state. -/
def mkTaskResult (s : AgentState) : TaskResult where
  success :=
    decide (s.totalSteps ≤ s.currentStep)
      || (((s.results.getLast?).map StepResult.success).getD false
          && decide (0 < s.extractedData.length))
  data := some s.extractedData
  steps := s.results
  healingAttempts := s.healingHistory
  duration := (s.results.map StepResult.duration).sum
  screenshots := s.results.filterMap StepResult.screenshot

def finalizeNode (s : AgentState) : AgentState :=
  { s with finalResult := some (mkTaskResult s) }

/-- The navigate node.  On failure it records the error and requests
healing but does not touch the healing counter, and its StepResult never
carries healingUsed or a failure screenshot. -/
def navigateNodeRun (s : AgentState) (o : ExecOutcome) : AgentState :=
  match s.currentAction with
  | some a =>
    if a.type = "navigate" && !(optFalsy a.target) then
      match o with
      | .ok d scr _ =>
        { s with
          screenshot := scr
          needsHealing := false
          results := s.results ++
            [{ action := a, success := true, error := none, duration := d,
               screenshot := some scr, healingUsed := false }] }
      | .failed e d _ =>
        { s with
          lastError := some e
          needsHealing := true
          results := s.results ++
            [{ action := a, success := false, error := some e, duration := d,
               screenshot := none, healingUsed := false }] }
    else { s with needsHealing := false }
  | none => { s with needsHealing := false }

/-- The click node.  The skipped-search-button early return and the normal
click success produce the same state delta and are both modelled by ok;
failure increments the healing counter. -/
def clickNodeRun (s : AgentState) (o : ExecOutcome) : AgentState :=
  match s.currentAction with
  | some a =>
    if a.type = "click" && !(optFalsy a.target) then
      match o with
      | .ok d scr _ =>
        { s with
          screenshot := scr
          needsHealing := false
          results := s.results ++
            [{ action := a, success := true, error := none, duration := d,
               screenshot := some scr,
               healingUsed := decide (0 < s.healingAttempts) }] }
      | .failed e d scr =>
        { s with
          screenshot := scr
          lastError := some e
          needsHealing := true
          healingAttempts := s.healingAttempts + 1
          results := s.results ++
            [{ action := a, success := false, error := some e, duration := d,
               screenshot := some scr,
               healingUsed := decide (0 < s.healingAttempts) }] }
    else { s with needsHealing := false }
  | none => { s with needsHealing := false }

/-- The fill node; identical failure handling to click. -/
def fillNodeRun (s : AgentState) (o : ExecOutcome) : AgentState :=
  match s.currentAction with
  | some a =>
    if a.type = "fill" && !(optFalsy a.target) then
      match o with
      | .ok d scr _ =>
        { s with
          screenshot := scr
          needsHealing := false
          results := s.results ++
            [{ action := a, success := true, error := none, duration := d,
               screenshot := some scr,
               healingUsed := decide (0 < s.healingAttempts) }] }
      | .failed e d scr =>
        { s with
          screenshot := scr
          lastError := some e
          needsHealing := true
          healingAttempts := s.healingAttempts + 1
          results := s.results ++
            [{ action := a, success := false, error := some e, duration := d,
               screenshot := some scr,
               healingUsed := decide (0 < s.healingAttempts) }] }
    else { s with needsHealing := false }
  | none => { s with needsHealing := false }

/-- The extract node.  Success merges the parsed object into
extractedData; failure requests healing without touching the counter. -/
def extractNodeRun (s : AgentState) (o : ExecOutcome) : AgentState :=
  match s.currentAction with
  | some a =>
    if a.type = "extract" && !(optFalsy a.target) then
      match o with
      | .ok d scr dat =>
        { s with
          screenshot := scr
          extractedData := mergeObj s.extractedData dat
          needsHealing := false
          results := s.results ++
            [{ action := a, success := true, error := none, duration := d,
               screenshot := some scr, healingUsed := false }] }
      | .failed e d scr =>
        { s with
          screenshot := scr
          lastError := some e
          needsHealing := true
          results := s.results ++
            [{ action := a, success := false, error := some e, duration := d,
               screenshot := some scr, healingUsed := false }] }
    else { s with needsHealing := false }
  | none => { s with needsHealing := false }

/-- The exhaustion record the heal node appends when the counter has
reached the ceiling. -/
def exhaustRecord (s : AgentState) : HealingAttempt where
  attemptNumber := s.healingAttempts
  originalError := s.lastError.getD "Unknown error"
  strategy := "exhausted"
  elementFound := false
  newSelector := none
  screenshot := s.screenshot

/-- The heal node on a non-exhausted invocation with a current action and
target, consuming one observed outcome. -/
def healNodeAttempt (s : AgentState) (a : Action) (o : HealOutcome) : AgentState :=
  match o with
  | .found strat sel scr =>
    { s with
      currentAction := some { a with target := some sel }
      screenshot := scr
      needsHealing := true
      healingAttempts := s.healingAttempts + 1
      healingHistory := s.healingHistory ++
        [{ attemptNumber := s.healingAttempts + 1,
           originalError := s.lastError.getD "Unknown error",
           strategy := strategyName strat,
           elementFound := true, newSelector := some sel, screenshot := scr }] }
  | .noneFound scr =>
    { s with
      screenshot := scr
      needsHealing := true
      healingAttempts := s.healingAttempts + 1
      healingHistory := s.healingHistory ++
        [{ attemptNumber := s.healingAttempts + 1,
           originalError := s.lastError.getD "Unknown error",
           strategy := "all-strategies-failed",
           elementFound := false, newSelector := none, screenshot := scr }] }
  | .threw =>
    { s with
      needsHealing := true
      healingAttempts := s.healingAttempts + 1
      healingHistory := s.healingHistory ++
        [{ attemptNumber := s.healingAttempts + 1,
           originalError := s.lastError.getD "Unknown error",
           strategy := "error",
           elementFound := false, newSelector := none,
           screenshot := s.screenshot }] }

/-- Whether the heal node takes its exhaustion guard. -/
def healExhausted (maxRetries : Nat) (s : AgentState) : Bool :=
  maxRetries ≤ s.healingAttempts

/-- The heal node with its guards: exhaustion first, then the no-op guard
for a missing action or target, then one recovery attempt. -/
def healNodeRun (maxRetries : Nat) (s : AgentState) (o : HealOutcome) : AgentState :=
  if healExhausted maxRetries s then
    { s with
      needsHealing := false
      healingExhausted := true
      healingHistory := s.healingHistory ++ [exhaustRecord s] }
  else
    match s.currentAction with
    | none => { s with needsHealing := false }
    | some a =>
      if optFalsy a.target then { s with needsHealing := false }
      else healNodeAttempt s a o

/-- Whether a heal invocation consumes an observation from the heal
oracle: the exhaustion and no-op guards return before any browser or
vision call. -/
def healConsumes (maxRetries : Nat) (s : AgentState) : Bool :=
  !healExhausted maxRetries s &&
    (match s.currentAction with
     | none => false
     | some a => !(optFalsy a.target))

/-- Run-wide configuration: the healing ceiling and what the planner
returned for this run. -/
structure RunConfig where
  maxRetries : Nat
  planned : List Action

/-- A machine configuration: the node about to run, the agent state, and
the two oracle streams of observed collaborator behavior. -/
structure Config where
  node : Node
  state : AgentState
  execOutcomes : List ExecOutcome
  healOutcomes : List HealOutcome

/-- Head of an oracle stream, with an inert default once exhausted. -/
def nextExec : List ExecOutcome → ExecOutcome × List ExecOutcome
  | [] => (.failed "oracle exhausted" 0 "", [])
  | o :: rest => (o, rest)

def nextHeal : List HealOutcome → HealOutcome × List HealOutcome
  | [] => (.threw, [])
  | o :: rest => (o, rest)

/-- One transition of the compiled graph: run the node the configuration
points at, then follow its (conditional) outgoing edge. -/
def step (cfg : RunConfig) (c : Config) : Config :=
  match c.node with
  | .plan =>
    { c with node := .router, state := planNode cfg.planned c.state }
  | .router =>
    let s := routerNode c.state
    { c with node := routerEdge s, state := s }
  | .navigate =>
    let p := nextExec c.execOutcomes
    let s := navigateNodeRun c.state p.1
    { c with node := execEdge s, state := s, execOutcomes := p.2 }
  | .click =>
    let p := nextExec c.execOutcomes
    let s := clickNodeRun c.state p.1
    { c with node := execEdge s, state := s, execOutcomes := p.2 }
  | .fill =>
    let p := nextExec c.execOutcomes
    let s := fillNodeRun c.state p.1
    { c with node := execEdge s, state := s, execOutcomes := p.2 }
  | .extract =>
    let p := nextExec c.execOutcomes
    let s := extractNodeRun c.state p.1
    { c with node := execEdge s, state := s, execOutcomes := p.2 }
  | .heal =>
    if healConsumes cfg.maxRetries c.state then
      let p := nextHeal c.healOutcomes
      let s := healNodeRun cfg.maxRetries c.state p.1
      { c with node := healEdge cfg.maxRetries s, state := s, healOutcomes := p.2 }
    else
      let s := healNodeRun cfg.maxRetries c.state .threw
      { c with node := healEdge cfg.maxRetries s, state := s }
  | .success =>
    { c with node := .router, state := successNode c.state }
  | .finalize =>
    { c with node := .done, state := finalizeNode c.state }
  | .done => c

/-- Iterated transitions. -/
def stepN (cfg : RunConfig) : Nat → Config → Config
  | 0, c => c
  | n + 1, c => stepN cfg n (step cfg c)

/-- The configuration a run starts from: START edges into plan. -/
def initConfig (eo : List ExecOutcome) (ho : List HealOutcome) : Config where
  node := .plan
  state := initialState
  execOutcomes := eo
  healOutcomes := ho

/-- The state of a run sitting in heal after a failed navigate action,
with retries remaining and a vision re-detection about to succeed. -/
def healNavState : AgentState :=
  { initialState with
    currentAction := some ⟨"navigate", some "https://example.com", none⟩
    needsHealing := true
    healingAttempts := 0
    lastError := some "NavigationError" }

def healNavConfig : Config where
  node := .heal
  state := healNavState
  execOutcomes := []
  healOutcomes := [.found .vision "#alt" ""]

/-- A fill dispatch whose action has no target: the executor's guard
fires, so no browser interaction happens and no StepResult is recorded. -/
def noTargetFillConfig : Config where
  node := .fill
  state := { initialState with currentAction := some ⟨"fill", none, none⟩ }
  execOutcomes := [.ok 1 "s" []]
  healOutcomes := []

def isExecNode : Node → Bool
  | .navigate => true
  | .click => true
  | .fill => true
  | .extract => true
  | _ => false

/-- The inductive invariant: the counter is bounded everywhere, zero on
entry to plan and router, and strictly below the ceiling on entry to any
executor (so that a failure increment cannot overshoot). -/
def attemptsInv (mr : Nat) (c : Config) : Prop :=
  c.state.healingAttempts ≤ mr
  ∧ ((c.node = Node.plan ∨ c.node = Node.router) →
      c.state.healingAttempts = 0)
  ∧ (isExecNode c.node = true → c.state.healingAttempts < mr)

/-! ## C1: the finalize success rule -/

/-- C1: finalize computes TaskResult.success exactly by the spec rule: in
every terminal run state, success is true iff the cursor reached
totalSteps, or the last recorded StepResult succeeded and the extracted
data object is non-empty.  In particular a full cursor with empty data
succeeds, and a short cursor with empty data and a failed (or absent) last
step fails. -/
theorem finalize_success_rule (s : AgentState) :
    ((mkTaskResult s).success = true ↔
      s.totalSteps ≤ s.currentStep ∨
        ((∃ r, s.results.getLast? = some r ∧ r.success = true) ∧
          s.extractedData ≠ []))
    ∧ (s.currentStep = s.totalSteps → s.extractedData = [] →
        (mkTaskResult s).success = true)
    ∧ (s.currentStep < s.totalSteps → s.extractedData = [] →
        (∀ r, s.results.getLast? = some r → r.success = false) →
        (mkTaskResult s).success = false) := by
  refine ⟨?_, ?_, ?_⟩
  · cases h : s.results.getLast? with
    | none => simp [mkTaskResult, h]
    | some r => simp [mkTaskResult, h, List.length_pos]
  · intro hc _
    simp [mkTaskResult, hc]
  · intro hc hd hr
    cases h : s.results.getLast? with
    | none => simp [mkTaskResult, h, Nat.not_le.mpr hc]
    | some r => simp [mkTaskResult, h, Nat.not_le.mpr hc, hr r h, hd]

/-- C1 witness: a run whose cursor reached totalSteps with no extracted
data is successful. -/
theorem finalize_success_rule_witness :
    (mkTaskResult initialState).success = true :=
  (finalize_success_rule initialState).2.1 rfl rfl

/-! ## C3: which action types get re-dispatched after healing -/

/-- C3 counterexample: the Self-Healing Engine produces a repaired
navigate action with retries remaining (healingAttempts 1 < maxRetries 3,
needsHealing true), yet the heal edge dispatches to success, not back to
the navigate state. -/
theorem heal_does_not_redispatch_navigate :
    ((step ⟨3, []⟩ healNavConfig).state.currentAction =
        some ⟨"navigate", some "#alt", none⟩)
    ∧ (step ⟨3, []⟩ healNavConfig).state.needsHealing = true
    ∧ (step ⟨3, []⟩ healNavConfig).state.healingAttempts < 3
    ∧ (step ⟨3, []⟩ healNavConfig).node = Node.success
    ∧ Node.success ≠ Node.navigate := by
  refine ⟨rfl, rfl, by decide, rfl, by decide⟩

/-- C3 amended: when heal produces a repaired action (which always keeps
the failed action's type) or signals retry-unchanged with retries
remaining, the graph re-dispatches to the same action-type state only for
click and fill; every other action type (navigate and extract included)
proceeds to success instead of retrying. -/
theorem heal_redispatch_only_click_fill (mr : Nat) (s : AgentState) (a : Action)
    (hn : s.needsHealing = true) (hlt : s.healingAttempts < mr)
    (ha : s.currentAction = some a) :
    (a.type = "click" → healEdge mr s = Node.click)
    ∧ (a.type = "fill" → healEdge mr s = Node.fill)
    ∧ (a.type ≠ "click" → a.type ≠ "fill" → healEdge mr s = Node.success)
    ∧ (∀ o : HealOutcome, ∃ act,
        (healNodeAttempt s a o).currentAction = some act ∧ act.type = a.type) := by
  have hguard : (mr ≤ s.healingAttempts || !s.needsHealing) = false := by
    simp [hn, Nat.not_le.mpr hlt]
  refine ⟨?_, ?_, ?_, ?_⟩
  · intro ht; simp [healEdge, hguard, ha, ht]
  · intro ht; simp [healEdge, hguard, ha, ht]
  · intro h1 h2; simp [healEdge, hguard, ha, h1, h2]
  · intro o
    cases o with
    | found strat sel scr => exact ⟨{ a with target := some sel }, rfl, rfl⟩
    | noneFound scr => exact ⟨a, by rw [show (healNodeAttempt s a (.noneFound scr)).currentAction = s.currentAction from rfl, ha], rfl⟩
    | threw => exact ⟨a, by rw [show (healNodeAttempt s a .threw).currentAction = s.currentAction from rfl, ha], rfl⟩

/-- C3 amended witness: a failed click with one retry remaining is
re-dispatched to the click state. -/
theorem heal_redispatch_only_click_fill_witness :
    healEdge 3 { healNavState with
      currentAction := some ⟨"click", some "#btn", none⟩ } = Node.click :=
  (heal_redispatch_only_click_fill 3
    { healNavState with currentAction := some ⟨"click", some "#btn", none⟩ }
    ⟨"click", some "#btn", none⟩ rfl (by decide) rfl).1 rfl

/-! ## C8: grading always fails on null or unsuccessful results -/

/-- C8: for every expected outcome, gradeResult is false when the task
result is null and when its success flag is false, regardless of the
extracted data. -/
theorem grade_requires_success (rTest : String → String → Bool)
    (e : ExpectedOutcome) (r : TaskResult) :
    gradeResult rTest none e = false
    ∧ gradeResult rTest (some { r with success := false }) e = false := by
  exact ⟨rfl, rfl⟩

/-! ## C9: wait, screenshot and unknown action types are skipped -/

/-- C9: the router's default branch sends wait, screenshot and any other
unrecognized action type to the success node, which only advances the
cursor and resets healing state: no StepResult is appended, and no
executor or oracle is consulted. -/
theorem wait_screenshot_skipped :
    (∀ (s : AgentState) (a : Action), s.isComplete = false →
      s.currentAction = some a →
      (a.type = "wait" ∨ a.type = "screenshot" ∨
        (a.type ≠ "navigate" ∧ a.type ≠ "click" ∧ a.type ≠ "fill" ∧
          a.type ≠ "extract")) →
      routerEdge s = Node.success)
    ∧ ∀ (cfg : RunConfig) (c : Config), c.node = Node.success →
        (step cfg c).node = Node.router
        ∧ (step cfg c).state.currentStep = c.state.currentStep + 1
        ∧ (step cfg c).state.results = c.state.results
        ∧ (step cfg c).state.healingAttempts = 0
        ∧ (step cfg c).execOutcomes = c.execOutcomes
        ∧ (step cfg c).healOutcomes = c.healOutcomes := by
  constructor
  · intro s a hic hca hty
    rcases hty with h | h | ⟨h1, h2, h3, h4⟩
    · simp [routerEdge, hic, hca, h]
    · simp [routerEdge, hic, hca, h]
    · simp [routerEdge, hic, hca, h1, h2, h3, h4]
  · intro cfg c hc
    have : step cfg c = { c with node := .router, state := successNode c.state } := by
      unfold step; rw [hc]
    rw [this]
    exact ⟨rfl, rfl, rfl, rfl, rfl, rfl⟩

/-- C9 witness: a planned wait action is routed to success. -/
theorem wait_screenshot_skipped_witness :
    routerEdge { initialState with
      currentAction := some ⟨"wait", some "results loaded", none⟩ } =
      Node.success :=
  (wait_screenshot_skipped).1
    { initialState with currentAction := some ⟨"wait", some "results loaded", none⟩ }
    ⟨"wait", some "results loaded", none⟩ rfl rfl (Or.inl rfl)

/-! ## C10: the empty plan finalizes immediately and successfully -/

/-- C10: when the planner returns an empty action list the run reaches
finalize at the first router entry and terminates with success = true,
empty steps, empty extracted data, empty healing history and duration 0,
whatever the healing ceiling and collaborator behavior. -/
theorem empty_plan_succeeds (mr : Nat) (eo : List ExecOutcome)
    (ho : List HealOutcome) :
    (stepN ⟨mr, []⟩ 2 (initConfig eo ho)).node = Node.finalize
    ∧ (stepN ⟨mr, []⟩ 3 (initConfig eo ho)).node = Node.done
    ∧ (stepN ⟨mr, []⟩ 3 (initConfig eo ho)).state.finalResult =
        some { success := true, data := some [], steps := [],
               healingAttempts := [], duration := 0, screenshots := [] } := by
  exact ⟨rfl, rfl, rfl⟩

/-! ## C6: calculatePassAtK -/

/-- Any-over-a-prefix in terms of positions: a true entry among the first
k elements. -/
theorem any_take_iff (l : List Bool) :
    ∀ k : Nat, ((l.take k).any (fun b => b) = true ↔
      ∃ i, i < k ∧ l.get? i = some true) := by
  induction l with
  | nil => intro k; simp
  | cons b t ih =>
    intro k
    cases k with
    | zero => simp
    | succ k =>
      simp only [List.take_succ_cons, List.any_cons, Bool.or_eq_true]
      constructor
      · rintro (hb | ht)
        · exact ⟨0, Nat.succ_pos _, by simp [hb]⟩
        · obtain ⟨i, hik, hget⟩ := (ih k).mp ht
          exact ⟨i + 1, Nat.succ_lt_succ hik, hget⟩
      · rintro ⟨i, hik, hget⟩
        cases i with
        | zero => left; simpa using hget
        | succ i =>
          right
          exact (ih k).mpr ⟨i, Nat.lt_of_succ_lt_succ hik, hget⟩

/-- C6: calculatePassAtK is true iff some of the first k attempts (in
order) succeeded, and is therefore monotone in k. -/
theorem calculatePassAtK_monotone (res : List Bool) (k1 k2 : Nat) :
    (calculatePassAtK res k1 = true ↔ ∃ i, i < k1 ∧ res.get? i = some true)
    ∧ (k1 ≤ k2 → calculatePassAtK res k1 = true →
        calculatePassAtK res k2 = true) := by
  refine ⟨any_take_iff res k1, ?_⟩
  intro hk h1
  obtain ⟨i, hik, hget⟩ := (any_take_iff res k1).mp h1
  exact (any_take_iff res k2).mpr ⟨i, Nat.lt_of_lt_of_le hik hk, hget⟩

/-- C6 witness: a success at position 1 within k=2 persists at k=3. -/
theorem calculatePassAtK_monotone_witness :
    calculatePassAtK [false, true, false] 3 = true :=
  (calculatePassAtK_monotone [false, true, false] 2 3).2 (by decide) (by decide)

/-! ## C2: the healing counter is bounded by maxRetries -/

theorem navigateNodeRun_attempts (s : AgentState) (o : ExecOutcome) :
    (navigateNodeRun s o).healingAttempts = s.healingAttempts := by
  unfold navigateNodeRun
  cases s.currentAction with
  | none => rfl
  | some a => cases o <;> (dsimp only []) <;> split <;> rfl

theorem extractNodeRun_attempts (s : AgentState) (o : ExecOutcome) :
    (extractNodeRun s o).healingAttempts = s.healingAttempts := by
  unfold extractNodeRun
  cases s.currentAction with
  | none => rfl
  | some a => cases o <;> (dsimp only []) <;> split <;> rfl

theorem clickNodeRun_attempts (s : AgentState) (o : ExecOutcome) :
    (clickNodeRun s o).healingAttempts = s.healingAttempts ∨
      (clickNodeRun s o).healingAttempts = s.healingAttempts + 1 := by
  unfold clickNodeRun
  cases s.currentAction with
  | none => left; rfl
  | some a =>
    cases o with
    | ok d scr dat =>
      dsimp only []
      split
      · left; rfl
      · left; rfl
    | failed e d scr =>
      dsimp only []
      split
      · right; rfl
      · left; rfl

theorem fillNodeRun_attempts (s : AgentState) (o : ExecOutcome) :
    (fillNodeRun s o).healingAttempts = s.healingAttempts ∨
      (fillNodeRun s o).healingAttempts = s.healingAttempts + 1 := by
  unfold fillNodeRun
  cases s.currentAction with
  | none => left; rfl
  | some a =>
    cases o with
    | ok d scr dat =>
      dsimp only []
      split
      · left; rfl
      · left; rfl
    | failed e d scr =>
      dsimp only []
      split
      · right; rfl
      · left; rfl

theorem healNodeRun_attempts_le (mr : Nat) (s : AgentState) (o : HealOutcome)
    (h : s.healingAttempts ≤ mr) :
    (healNodeRun mr s o).healingAttempts ≤ mr := by
  unfold healNodeRun
  by_cases hex : healExhausted mr s = true
  · rw [if_pos hex]; exact h
  · rw [if_neg hex]
    have hlt : s.healingAttempts < mr := by
      unfold healExhausted at hex
      exact Nat.lt_of_not_le (fun hle => hex (by simpa using hle))
    cases s.currentAction with
    | none => exact h
    | some a =>
      dsimp only []
      split
      · exact h
      · cases o <;> exact Nat.succ_le_of_lt hlt

theorem execEdge_cases (s : AgentState) :
    execEdge s = Node.heal ∨ execEdge s = Node.success := by
  unfold execEdge
  cases hb : s.needsHealing <;> simp

theorem healEdge_cases (mr : Nat) (s : AgentState) :
    healEdge mr s = Node.success ∨
      ((healEdge mr s = Node.click ∨ healEdge mr s = Node.fill) ∧
        s.healingAttempts < mr) := by
  unfold healEdge
  by_cases hg : (decide (mr ≤ s.healingAttempts) || !s.needsHealing) = true
  · rw [if_pos hg]; left; rfl
  · rw [if_neg hg]
    have hlt : s.healingAttempts < mr := by
      simp only [Bool.or_eq_true, decide_eq_true_eq, Bool.not_eq_true'] at hg
      exact Nat.lt_of_not_le (fun hle => hg (Or.inl hle))
    cases s.currentAction with
    | none => left; rfl
    | some a =>
      dsimp only []
      by_cases h1 : a.type = "click"
      · rw [if_pos h1]; right; exact ⟨Or.inl rfl, hlt⟩
      · rw [if_neg h1]
        by_cases h2 : a.type = "fill"
        · rw [if_pos h2]; right; exact ⟨Or.inr rfl, hlt⟩
        · rw [if_neg h2]; left; rfl

theorem routerEdge_cases (s : AgentState) :
    routerEdge s = Node.finalize ∨ routerEdge s = Node.navigate ∨
      routerEdge s = Node.click ∨ routerEdge s = Node.fill ∨
      routerEdge s = Node.extract ∨ routerEdge s = Node.success := by
  unfold routerEdge
  by_cases hic : s.isComplete = true
  · rw [if_pos hic]; exact Or.inl rfl
  · rw [if_neg hic]
    cases s.currentAction with
    | none => exact Or.inl rfl
    | some a =>
      dsimp only []
      by_cases h1 : a.type = "navigate"
      · rw [if_pos h1]; exact Or.inr (Or.inl rfl)
      rw [if_neg h1]
      by_cases h2 : a.type = "click"
      · rw [if_pos h2]; exact Or.inr (Or.inr (Or.inl rfl))
      rw [if_neg h2]
      by_cases h3 : a.type = "fill"
      · rw [if_pos h3]; exact Or.inr (Or.inr (Or.inr (Or.inl rfl)))
      rw [if_neg h3]
      by_cases h4 : a.type = "extract"
      · rw [if_pos h4]; exact Or.inr (Or.inr (Or.inr (Or.inr (Or.inl rfl))))
      rw [if_neg h4]
      exact Or.inr (Or.inr (Or.inr (Or.inr (Or.inr rfl))))

theorem routerNode_attempts (s : AgentState) :
    (routerNode s).healingAttempts = s.healingAttempts := by
  unfold routerNode; split <;> rfl

theorem attemptsInv_step (cfg : RunConfig) (hmr : 1 ≤ cfg.maxRetries)
    (c : Config) (h : attemptsInv cfg.maxRetries c) :
    attemptsInv cfg.maxRetries (step cfg c) := by
  obtain ⟨hle, hzero, hexec⟩ := h
  obtain ⟨nd, st, eoc, hoc⟩ := c
  dsimp only [] at hle hzero hexec
  cases nd with
  | plan =>
    have h0 : st.healingAttempts = 0 := hzero (Or.inl rfl)
    refine ⟨?_, fun _ => ?_, fun _ => ?_⟩
    · show st.healingAttempts ≤ cfg.maxRetries; omega
    · show st.healingAttempts = 0; exact h0
    · show st.healingAttempts < cfg.maxRetries; omega
  | router =>
    have h0 : st.healingAttempts = 0 := hzero (Or.inr rfl)
    have h0' : (routerNode st).healingAttempts = 0 := by
      rw [routerNode_attempts]; exact h0
    refine ⟨?_, fun _ => ?_, fun _ => ?_⟩
    · show (routerNode st).healingAttempts ≤ cfg.maxRetries; omega
    · show (routerNode st).healingAttempts = 0; exact h0'
    · show (routerNode st).healingAttempts < cfg.maxRetries; omega
  | navigate =>
    have hlt : st.healingAttempts < cfg.maxRetries := hexec rfl
    have ha : (navigateNodeRun st (nextExec eoc).1).healingAttempts
        = st.healingAttempts := navigateNodeRun_attempts _ _
    refine ⟨?_, fun hx => ?_, fun hx => ?_⟩
    · show (navigateNodeRun st (nextExec eoc).1).healingAttempts ≤ cfg.maxRetries
      omega
    · exfalso
      have hx' : execEdge (navigateNodeRun st (nextExec eoc).1) = Node.plan ∨
          execEdge (navigateNodeRun st (nextExec eoc).1) = Node.router := hx
      rcases execEdge_cases (navigateNodeRun st (nextExec eoc).1) with he | he <;>
        rw [he] at hx' <;> rcases hx' with h | h <;> cases h
    · show (navigateNodeRun st (nextExec eoc).1).healingAttempts < cfg.maxRetries
      omega
  | extract =>
    have hlt : st.healingAttempts < cfg.maxRetries := hexec rfl
    have ha : (extractNodeRun st (nextExec eoc).1).healingAttempts
        = st.healingAttempts := extractNodeRun_attempts _ _
    refine ⟨?_, fun hx => ?_, fun hx => ?_⟩
    · show (extractNodeRun st (nextExec eoc).1).healingAttempts ≤ cfg.maxRetries
      omega
    · exfalso
      have hx' : execEdge (extractNodeRun st (nextExec eoc).1) = Node.plan ∨
          execEdge (extractNodeRun st (nextExec eoc).1) = Node.router := hx
      rcases execEdge_cases (extractNodeRun st (nextExec eoc).1) with he | he <;>
        rw [he] at hx' <;> rcases hx' with h | h <;> cases h
    · show (extractNodeRun st (nextExec eoc).1).healingAttempts < cfg.maxRetries
      omega
  | click =>
    have hlt : st.healingAttempts < cfg.maxRetries := hexec rfl
    have ha := clickNodeRun_attempts st (nextExec eoc).1
    refine ⟨?_, fun hx => ?_, fun hx => ?_⟩
    · show (clickNodeRun st (nextExec eoc).1).healingAttempts ≤ cfg.maxRetries
      rcases ha with ha | ha <;> omega
    · exfalso
      have hx' : execEdge (clickNodeRun st (nextExec eoc).1) = Node.plan ∨
          execEdge (clickNodeRun st (nextExec eoc).1) = Node.router := hx
      rcases execEdge_cases (clickNodeRun st (nextExec eoc).1) with he | he <;>
        rw [he] at hx' <;> rcases hx' with h | h <;> cases h
    · exfalso
      have hx' : isExecNode (execEdge (clickNodeRun st (nextExec eoc).1)) = true := hx
      rcases execEdge_cases (clickNodeRun st (nextExec eoc).1) with he | he <;>
        rw [he] at hx' <;> simp [isExecNode] at hx'
  | fill =>
    have hlt : st.healingAttempts < cfg.maxRetries := hexec rfl
    have ha := fillNodeRun_attempts st (nextExec eoc).1
    refine ⟨?_, fun hx => ?_, fun hx => ?_⟩
    · show (fillNodeRun st (nextExec eoc).1).healingAttempts ≤ cfg.maxRetries
      rcases ha with ha | ha <;> omega
    · exfalso
      have hx' : execEdge (fillNodeRun st (nextExec eoc).1) = Node.plan ∨
          execEdge (fillNodeRun st (nextExec eoc).1) = Node.router := hx
      rcases execEdge_cases (fillNodeRun st (nextExec eoc).1) with he | he <;>
        rw [he] at hx' <;> rcases hx' with h | h <;> cases h
    · exfalso
      have hx' : isExecNode (execEdge (fillNodeRun st (nextExec eoc).1)) = true := hx
      rcases execEdge_cases (fillNodeRun st (nextExec eoc).1) with he | he <;>
        rw [he] at hx' <;> simp [isExecNode] at hx'
  | heal =>
    by_cases hc : healConsumes cfg.maxRetries st = true
    · have hs : step cfg (Config.mk Node.heal st eoc hoc) =
          Config.mk
            (healEdge cfg.maxRetries
              (healNodeRun cfg.maxRetries st (nextHeal hoc).1))
            (healNodeRun cfg.maxRetries st (nextHeal hoc).1)
            eoc (nextHeal hoc).2 := by
        simp only [step]
        rw [if_pos hc]
      have ha := healNodeRun_attempts_le cfg.maxRetries st (nextHeal hoc).1 hle
      refine ⟨?_, fun hx => ?_, fun hx => ?_⟩ <;> rw [hs] at *
      · exact ha
      · exfalso
        rcases healEdge_cases cfg.maxRetries
            (healNodeRun cfg.maxRetries st (nextHeal hoc).1)
          with he | ⟨he | he, _⟩ <;> rw [he] at hx <;>
          rcases hx with hx | hx <;> cases hx
      · rcases healEdge_cases cfg.maxRetries
            (healNodeRun cfg.maxRetries st (nextHeal hoc).1)
          with he | ⟨he | he, hlt2⟩
        · rw [he] at hx; simp [isExecNode] at hx
        · exact hlt2
        · exact hlt2
    · have hs : step cfg (Config.mk Node.heal st eoc hoc) =
          Config.mk
            (healEdge cfg.maxRetries
              (healNodeRun cfg.maxRetries st HealOutcome.threw))
            (healNodeRun cfg.maxRetries st HealOutcome.threw)
            eoc hoc := by
        simp only [step]
        rw [if_neg hc]
      have ha := healNodeRun_attempts_le cfg.maxRetries st HealOutcome.threw hle
      refine ⟨?_, fun hx => ?_, fun hx => ?_⟩ <;> rw [hs] at *
      · exact ha
      · exfalso
        rcases healEdge_cases cfg.maxRetries
            (healNodeRun cfg.maxRetries st HealOutcome.threw)
          with he | ⟨he | he, _⟩ <;> rw [he] at hx <;>
          rcases hx with hx | hx <;> cases hx
      · rcases healEdge_cases cfg.maxRetries
            (healNodeRun cfg.maxRetries st HealOutcome.threw)
          with he | ⟨he | he, hlt2⟩
        · rw [he] at hx; simp [isExecNode] at hx
        · exact hlt2
        · exact hlt2
  | success =>
    refine ⟨?_, fun _ => ?_, fun hx => ?_⟩
    · show (0 : Nat) ≤ cfg.maxRetries; omega
    · show (0 : Nat) = 0; rfl
    · show (0 : Nat) < cfg.maxRetries; omega
  | finalize =>
    refine ⟨?_, fun hx => ?_, fun hx => ?_⟩
    · show st.healingAttempts ≤ cfg.maxRetries; exact hle
    · exfalso
      have hx' : Node.done = Node.plan ∨ Node.done = Node.router := hx
      rcases hx' with h | h <;> cases h
    · exfalso
      have hx' : isExecNode Node.done = true := hx
      simp [isExecNode] at hx'
  | done =>
    refine ⟨?_, fun hx => ?_, fun hx => ?_⟩
    · exact hle
    · exact hzero hx
    · exact hexec hx


theorem attemptsInv_stepN (cfg : RunConfig) (hmr : 1 ≤ cfg.maxRetries)
    (n : Nat) (c : Config) (h : attemptsInv cfg.maxRetries c) :
    attemptsInv cfg.maxRetries (stepN cfg n c) := by
  induction n generalizing c with
  | zero => exact h
  | succ n ih => exact ih (step cfg c) (attemptsInv_step cfg hmr c h)

/-- C2: for any configured ceiling between 1 and 10, the per-step healing
counter never exceeds maxRetries in any reachable configuration; and when
the heal node fires with the counter at the ceiling, it records one
exhausted entry, consumes no healing strategy from the oracle, clears
needsHealing, and the run advances to the next step. -/
theorem healing_attempts_bounded (mr : Nat) (h1 : 1 ≤ mr) (h10 : mr ≤ 10)
    (acts : List Action) (eo : List ExecOutcome) (ho : List HealOutcome)
    (n : Nat) :
    (stepN ⟨mr, acts⟩ n (initConfig eo ho)).state.healingAttempts ≤ mr
    ∧ (∀ c : Config, c.node = Node.heal → mr ≤ c.state.healingAttempts →
        (step ⟨mr, acts⟩ c).node = Node.success
        ∧ (step ⟨mr, acts⟩ c).healOutcomes = c.healOutcomes
        ∧ (step ⟨mr, acts⟩ c).state.healingHistory =
            c.state.healingHistory ++ [exhaustRecord c.state]
        ∧ (step ⟨mr, acts⟩ c).state.needsHealing = false
        ∧ (step ⟨mr, acts⟩ c).state.healingExhausted = true
        ∧ (stepN ⟨mr, acts⟩ 2 c).state.currentStep = c.state.currentStep + 1
        ∧ (stepN ⟨mr, acts⟩ 2 c).node = Node.router) := by
  constructor
  · have hinv : attemptsInv mr (initConfig eo ho) :=
      ⟨Nat.zero_le mr, fun _ => rfl, fun _ => h1⟩
    exact (attemptsInv_stepN ⟨mr, acts⟩ h1 n (initConfig eo ho) hinv).1
  · intro c hnode hge
    obtain ⟨nd, st, eoc, hoc⟩ := c
    dsimp only [] at hnode hge ⊢
    subst hnode
    have hexh : healExhausted mr st = true := by
      unfold healExhausted; simpa using hge
    have hcons : healConsumes mr st = false := by
      unfold healConsumes; rw [hexh]; rfl
    have hrun : healNodeRun mr st .threw =
        { st with
          needsHealing := false
          healingExhausted := true
          healingHistory := st.healingHistory ++ [exhaustRecord st] } := by
      unfold healNodeRun; rw [if_pos hexh]
    have hedge : healEdge mr
        { st with
          needsHealing := false
          healingExhausted := true
          healingHistory := st.healingHistory ++ [exhaustRecord st] } =
        Node.success := by
      unfold healEdge; rw [if_pos (by simp)]
    have hstep1 : step ⟨mr, acts⟩ ⟨Node.heal, st, eoc, hoc⟩ =
        ⟨Node.success,
          { st with
            needsHealing := false
            healingExhausted := true
            healingHistory := st.healingHistory ++ [exhaustRecord st] },
          eoc, hoc⟩ := by
      simp only [step]
      rw [if_neg (by rw [hcons]; exact Bool.false_ne_true), hrun, hedge]
    rw [show stepN ⟨mr, acts⟩ 2 ⟨Node.heal, st, eoc, hoc⟩ =
        step ⟨mr, acts⟩ (step ⟨mr, acts⟩ ⟨Node.heal, st, eoc, hoc⟩) from rfl]
    rw [hstep1]
    exact ⟨rfl, rfl, rfl, rfl, rfl, rfl, rfl⟩

/-- C2 witness: with ceiling 1, the initial configuration satisfies the
bound, and a heal entered at the ceiling moves straight to success. -/
theorem healing_attempts_bounded_witness :
    (stepN ⟨1, []⟩ 0 (initConfig [] [])).state.healingAttempts ≤ 1
    ∧ (step ⟨1, []⟩
        ⟨Node.heal, { initialState with healingAttempts := 1 }, [], []⟩).node =
      Node.success := by
  have h := healing_attempts_bounded 1 (by decide) (by decide) [] [] [] 0
  exact ⟨h.1,
    (h.2 ⟨Node.heal, { initialState with healingAttempts := 1 }, [], []⟩
      rfl (by decide)).1⟩

/-! ## C4: StepResult and HealingAttempt bookkeeping per step -/

theorem nextHeal_eq (l : List HealOutcome) :
    nextHeal l = (l.headD .threw, l.tail) := by
  cases l <;> rfl

theorem stepN_succ (cfg : RunConfig) (n : Nat) (c : Config) :
    stepN cfg (n + 1) c = stepN cfg n (step cfg c) := rfl

/-- A fill dispatch whose browser interaction succeeds: one successful
StepResult is appended and the run proceeds to success. -/
theorem step_fill_ok (cfg : RunConfig) (st : AgentState) (a : Action)
    (eo2 : List ExecOutcome) (hoc : List HealOutcome) (d : Nat) (scr : String)
    (dat : List (String × Json))
    (ha : st.currentAction = some a) (hty : a.type = "fill")
    (htg : optFalsy a.target = false) :
    step cfg ⟨Node.fill, st, .ok d scr dat :: eo2, hoc⟩ =
      ⟨Node.success,
        { st with
          screenshot := scr
          needsHealing := false
          results := st.results ++
            [{ action := a, success := true, error := none, duration := d,
               screenshot := some scr,
               healingUsed := decide (0 < st.healingAttempts) }] },
        eo2, hoc⟩ := by
  have hrun : fillNodeRun st (.ok d scr dat) =
      { st with
        screenshot := scr
        needsHealing := false
        results := st.results ++
          [{ action := a, success := true, error := none, duration := d,
             screenshot := some scr,
             healingUsed := decide (0 < st.healingAttempts) }] } := by
    unfold fillNodeRun
    rw [ha]
    simp [hty, htg]
  simp only [step, nextExec]
  rw [hrun]
  rfl

/-- A fill dispatch whose browser interaction throws: one failed
StepResult is appended, the counter is incremented, and the run enters
heal. -/
theorem step_fill_failed (cfg : RunConfig) (st : AgentState) (a : Action)
    (eo2 : List ExecOutcome) (hoc : List HealOutcome) (e : String) (d : Nat)
    (scr : String)
    (ha : st.currentAction = some a) (hty : a.type = "fill")
    (htg : optFalsy a.target = false) :
    step cfg ⟨Node.fill, st, .failed e d scr :: eo2, hoc⟩ =
      ⟨Node.heal,
        { st with
          screenshot := scr
          lastError := some e
          needsHealing := true
          healingAttempts := st.healingAttempts + 1
          results := st.results ++
            [{ action := a, success := false, error := some e, duration := d,
               screenshot := some scr,
               healingUsed := decide (0 < st.healingAttempts) }] },
        eo2, hoc⟩ := by
  have hrun : fillNodeRun st (.failed e d scr) =
      { st with
        screenshot := scr
        lastError := some e
        needsHealing := true
        healingAttempts := st.healingAttempts + 1
        results := st.results ++
          [{ action := a, success := false, error := some e, duration := d,
             screenshot := some scr,
             healingUsed := decide (0 < st.healingAttempts) }] } := by
    unfold fillNodeRun
    rw [ha]
    simp [hty, htg]
  simp only [step, nextExec]
  rw [hrun]
  rfl

/-- A non-exhausted heal invocation with a current action that has a
target consumes exactly the head of the heal oracle. -/
theorem step_heal_attempt (cfg : RunConfig) (st : AgentState) (a : Action)
    (eoc : List ExecOutcome) (hoc : List HealOutcome)
    (ha : st.currentAction = some a)
    (hlt : st.healingAttempts < cfg.maxRetries)
    (htg : optFalsy a.target = false) :
    step cfg ⟨Node.heal, st, eoc, hoc⟩ =
      ⟨healEdge cfg.maxRetries (healNodeAttempt st a (hoc.headD .threw)),
        healNodeAttempt st a (hoc.headD .threw), eoc, hoc.tail⟩ := by
  have hex : healExhausted cfg.maxRetries st = false := by
    unfold healExhausted
    simp [Nat.not_le.mpr hlt]
  have hcons : healConsumes cfg.maxRetries st = true := by
    unfold healConsumes
    rw [hex, ha]
    simp [htg]
  have hrun : healNodeRun cfg.maxRetries st (hoc.headD .threw) =
      healNodeAttempt st a (hoc.headD .threw) := by
    unfold healNodeRun
    rw [if_neg (by rw [hex]; exact Bool.false_ne_true), ha]
    simp [htg]
  simp only [step]
  rw [if_pos hcons, nextHeal_eq]
  simp only []
  rw [hrun]

/-- Every heal attempt increments the counter by one, flags a retry,
leaves the results alone and appends exactly one HealingAttempt. -/
theorem healNodeAttempt_spec (st : AgentState) (a : Action) (o : HealOutcome) :
    (healNodeAttempt st a o).healingAttempts = st.healingAttempts + 1
    ∧ (healNodeAttempt st a o).needsHealing = true
    ∧ (healNodeAttempt st a o).results = st.results
    ∧ ∃ h1, (healNodeAttempt st a o).healingHistory =
        st.healingHistory ++ [h1] := by
  cases o <;> exact ⟨rfl, rfl, rfl, _, rfl⟩

/-- A heal attempt keeps the action type, and keeps a usable target as
long as a found selector is non-empty. -/
theorem healNodeAttempt_action (st : AgentState) (a : Action) (o : HealOutcome)
    (ha : st.currentAction = some a) (htg : optFalsy a.target = false)
    (hsel : ∀ strat sel scr, o = .found strat sel scr → sel ≠ "") :
    ∃ a2, (healNodeAttempt st a o).currentAction = some a2
      ∧ a2.type = a.type ∧ optFalsy a2.target = false := by
  cases o with
  | found strat sel scr =>
    refine ⟨{ a with target := some sel }, rfl, rfl, ?_⟩
    simp [optFalsy, hsel strat sel scr rfl]
  | noneFound scr =>
    exact ⟨a, ha, rfl, htg⟩
  | threw =>
    exact ⟨a, ha, rfl, htg⟩

theorem healEdge_to_fill (mr : Nat) (s2 : AgentState) (a2 : Action)
    (hn : s2.needsHealing = true) (hlt : s2.healingAttempts < mr)
    (ha : s2.currentAction = some a2) (hty : a2.type = "fill") :
    healEdge mr s2 = Node.fill := by
  unfold healEdge
  rw [if_neg (by simp [hn, Nat.not_le.mpr hlt]), ha]
  simp [hty]

/-- A click dispatch whose browser interaction succeeds: one successful
StepResult is appended and the run proceeds to success. -/
theorem step_click_ok (cfg : RunConfig) (st : AgentState) (a : Action)
    (eo2 : List ExecOutcome) (hoc : List HealOutcome) (d : Nat) (scr : String)
    (dat : List (String × Json))
    (ha : st.currentAction = some a) (hty : a.type = "click")
    (htg : optFalsy a.target = false) :
    step cfg ⟨Node.click, st, .ok d scr dat :: eo2, hoc⟩ =
      ⟨Node.success,
        { st with
          screenshot := scr
          needsHealing := false
          results := st.results ++
            [{ action := a, success := true, error := none, duration := d,
               screenshot := some scr,
               healingUsed := decide (0 < st.healingAttempts) }] },
        eo2, hoc⟩ := by
  have hrun : clickNodeRun st (.ok d scr dat) =
      { st with
        screenshot := scr
        needsHealing := false
        results := st.results ++
          [{ action := a, success := true, error := none, duration := d,
             screenshot := some scr,
             healingUsed := decide (0 < st.healingAttempts) }] } := by
    unfold clickNodeRun
    rw [ha]
    simp [hty, htg]
  simp only [step, nextExec]
  rw [hrun]
  rfl

/-- A click dispatch whose browser interaction throws: one failed
StepResult is appended, the counter is incremented, and the run enters
heal. -/
theorem step_click_failed (cfg : RunConfig) (st : AgentState) (a : Action)
    (eo2 : List ExecOutcome) (hoc : List HealOutcome) (e : String) (d : Nat)
    (scr : String)
    (ha : st.currentAction = some a) (hty : a.type = "click")
    (htg : optFalsy a.target = false) :
    step cfg ⟨Node.click, st, .failed e d scr :: eo2, hoc⟩ =
      ⟨Node.heal,
        { st with
          screenshot := scr
          lastError := some e
          needsHealing := true
          healingAttempts := st.healingAttempts + 1
          results := st.results ++
            [{ action := a, success := false, error := some e, duration := d,
               screenshot := some scr,
               healingUsed := decide (0 < st.healingAttempts) }] },
        eo2, hoc⟩ := by
  have hrun : clickNodeRun st (.failed e d scr) =
      { st with
        screenshot := scr
        lastError := some e
        needsHealing := true
        healingAttempts := st.healingAttempts + 1
        results := st.results ++
          [{ action := a, success := false, error := some e, duration := d,
             screenshot := some scr,
             healingUsed := decide (0 < st.healingAttempts) }] } := by
    unfold clickNodeRun
    rw [ha]
    simp [hty, htg]
  simp only [step, nextExec]
  rw [hrun]
  rfl

theorem healEdge_to_click (mr : Nat) (s2 : AgentState) (a2 : Action)
    (hn : s2.needsHealing = true) (hlt : s2.healingAttempts < mr)
    (ha : s2.currentAction = some a2) (hty : a2.type = "click") :
    healEdge mr s2 = Node.click := by
  unfold healEdge
  rw [if_neg (by simp [hn, Nat.not_le.mpr hlt]), ha]
  simp [hty]

/-- Click and fill share the same success shape. -/
theorem step_cf_ok (cfg : RunConfig) (nd : Node) (st : AgentState) (a : Action)
    (eo2 : List ExecOutcome) (hoc : List HealOutcome) (d : Nat) (scr : String)
    (dat : List (String × Json))
    (hnd : (nd = Node.click ∧ a.type = "click") ∨
      (nd = Node.fill ∧ a.type = "fill"))
    (ha : st.currentAction = some a) (htg : optFalsy a.target = false) :
    step cfg ⟨nd, st, .ok d scr dat :: eo2, hoc⟩ =
      ⟨Node.success,
        { st with
          screenshot := scr
          needsHealing := false
          results := st.results ++
            [{ action := a, success := true, error := none, duration := d,
               screenshot := some scr,
               healingUsed := decide (0 < st.healingAttempts) }] },
        eo2, hoc⟩ := by
  rcases hnd with ⟨h1, h2⟩ | ⟨h1, h2⟩ <;> subst h1
  · exact step_click_ok cfg st a eo2 hoc d scr dat ha h2 htg
  · exact step_fill_ok cfg st a eo2 hoc d scr dat ha h2 htg

/-- Click and fill share the same failure shape. -/
theorem step_cf_failed (cfg : RunConfig) (nd : Node) (st : AgentState)
    (a : Action) (eo2 : List ExecOutcome) (hoc : List HealOutcome) (e : String)
    (d : Nat) (scr : String)
    (hnd : (nd = Node.click ∧ a.type = "click") ∨
      (nd = Node.fill ∧ a.type = "fill"))
    (ha : st.currentAction = some a) (htg : optFalsy a.target = false) :
    step cfg ⟨nd, st, .failed e d scr :: eo2, hoc⟩ =
      ⟨Node.heal,
        { st with
          screenshot := scr
          lastError := some e
          needsHealing := true
          healingAttempts := st.healingAttempts + 1
          results := st.results ++
            [{ action := a, success := false, error := some e, duration := d,
               screenshot := some scr,
               healingUsed := decide (0 < st.healingAttempts) }] },
        eo2, hoc⟩ := by
  rcases hnd with ⟨h1, h2⟩ | ⟨h1, h2⟩ <;> subst h1
  · exact step_click_failed cfg st a eo2 hoc e d scr ha h2 htg
  · exact step_fill_failed cfg st a eo2 hoc e d scr ha h2 htg

theorem healEdge_to_cf (mr : Nat) (s2 : AgentState) (a2 : Action) (nd : Node)
    (hnd : (nd = Node.click ∧ a2.type = "click") ∨
      (nd = Node.fill ∧ a2.type = "fill"))
    (hn : s2.needsHealing = true) (hlt : s2.healingAttempts < mr)
    (ha : s2.currentAction = some a2) :
    healEdge mr s2 = nd := by
  rcases hnd with ⟨h1, h2⟩ | ⟨h1, h2⟩ <;> subst h1
  · exact healEdge_to_click mr s2 a2 hn hlt ha h2
  · exact healEdge_to_fill mr s2 a2 hn hlt ha h2

/-- A navigate dispatch whose browser interaction succeeds: one
successful StepResult is appended and the run proceeds to success. -/
theorem step_navigate_ok (cfg : RunConfig) (st : AgentState) (a : Action)
    (eo2 : List ExecOutcome) (hoc : List HealOutcome) (d : Nat) (scr : String)
    (dat : List (String × Json))
    (ha : st.currentAction = some a) (hty : a.type = "navigate")
    (htg : optFalsy a.target = false) :
    step cfg ⟨Node.navigate, st, .ok d scr dat :: eo2, hoc⟩ =
      ⟨Node.success,
        { st with
          screenshot := scr
          needsHealing := false
          results := st.results ++
            [{ action := a, success := true, error := none, duration := d,
               screenshot := some scr, healingUsed := false }] },
        eo2, hoc⟩ := by
  have hrun : navigateNodeRun st (.ok d scr dat) =
      { st with
        screenshot := scr
        needsHealing := false
        results := st.results ++
          [{ action := a, success := true, error := none, duration := d,
             screenshot := some scr, healingUsed := false }] } := by
    unfold navigateNodeRun
    rw [ha]
    simp [hty, htg]
  simp only [step, nextExec]
  rw [hrun]
  rfl

/-- An extract dispatch whose vision extraction succeeds: one successful
StepResult is appended, the data merged, and the run proceeds to
success. -/
theorem step_extract_ok (cfg : RunConfig) (st : AgentState) (a : Action)
    (eo2 : List ExecOutcome) (hoc : List HealOutcome) (d : Nat) (scr : String)
    (dat : List (String × Json))
    (ha : st.currentAction = some a) (hty : a.type = "extract")
    (htg : optFalsy a.target = false) :
    step cfg ⟨Node.extract, st, .ok d scr dat :: eo2, hoc⟩ =
      ⟨Node.success,
        { st with
          screenshot := scr
          extractedData := mergeObj st.extractedData dat
          needsHealing := false
          results := st.results ++
            [{ action := a, success := true, error := none, duration := d,
               screenshot := some scr, healingUsed := false }] },
        eo2, hoc⟩ := by
  have hrun : extractNodeRun st (.ok d scr dat) =
      { st with
        screenshot := scr
        extractedData := mergeObj st.extractedData dat
        needsHealing := false
        results := st.results ++
          [{ action := a, success := true, error := none, duration := d,
             screenshot := some scr, healingUsed := false }] } := by
    unfold extractNodeRun
    rw [ha]
    simp [hty, htg]
  simp only [step, nextExec]
  rw [hrun]
  rfl

/-- The executors' no-op guard: an action without a usable target skips
the browser entirely and only clears needsHealing. -/
theorem navigateNodeRun_noop (st : AgentState) (a : Action) (o : ExecOutcome)
    (ha : st.currentAction = some a) (htg : optFalsy a.target = true) :
    navigateNodeRun st o = { st with needsHealing := false } := by
  unfold navigateNodeRun
  rw [ha]
  simp [htg]

theorem clickNodeRun_noop (st : AgentState) (a : Action) (o : ExecOutcome)
    (ha : st.currentAction = some a) (htg : optFalsy a.target = true) :
    clickNodeRun st o = { st with needsHealing := false } := by
  unfold clickNodeRun
  rw [ha]
  simp [htg]

theorem fillNodeRun_noop (st : AgentState) (a : Action) (o : ExecOutcome)
    (ha : st.currentAction = some a) (htg : optFalsy a.target = true) :
    fillNodeRun st o = { st with needsHealing := false } := by
  unfold fillNodeRun
  rw [ha]
  simp [htg]

theorem extractNodeRun_noop (st : AgentState) (a : Action) (o : ExecOutcome)
    (ha : st.currentAction = some a) (htg : optFalsy a.target = true) :
    extractNodeRun st o = { st with needsHealing := false } := by
  unfold extractNodeRun
  rw [ha]
  simp [htg]

/-- A click or fill step dispatched with a usable target that fails m
times, healing after each failure, and then succeeds: m + 1 StepResults
(m failures, one success) and m HealingAttempts are recorded. -/
theorem cf_heal_cycles (cfg : RunConfig) (nd : Node) (ty : String)
    (hnd : (nd = Node.click ∧ ty = "click") ∨ (nd = Node.fill ∧ ty = "fill"))
    (m : Nat) (st : AgentState)
    (a : Action) (eo2 : List ExecOutcome) (hoc : List HealOutcome) (e : String)
    (d : Nat) (scr : String) (d2 : Nat) (scr2 : String)
    (dat : List (String × Json))
    (ha : st.currentAction = some a) (hty : a.type = ty)
    (htg : optFalsy a.target = false)
    (hb : st.healingAttempts + 2 * m < cfg.maxRetries)
    (hsel : ∀ strat sel scr3, HealOutcome.found strat sel scr3 ∈ hoc → sel ≠ "") :
    ∃ fails lastR,
      (stepN cfg (2 * m + 1)
        ⟨nd, st,
          List.replicate m (.failed e d scr) ++ .ok d2 scr2 dat :: eo2,
          hoc⟩).node = Node.success
      ∧ (stepN cfg (2 * m + 1)
          ⟨nd, st,
            List.replicate m (.failed e d scr) ++ .ok d2 scr2 dat :: eo2,
            hoc⟩).state.results = st.results ++ fails ++ [lastR]
      ∧ fails.length = m
      ∧ (∀ r ∈ fails, r.success = false)
      ∧ lastR.success = true
      ∧ (stepN cfg (2 * m + 1)
          ⟨nd, st,
            List.replicate m (.failed e d scr) ++ .ok d2 scr2 dat :: eo2,
            hoc⟩).state.healingHistory.length
        = st.healingHistory.length + m := by
  induction m generalizing st a hoc with
  | zero =>
    have hnd1 : (nd = Node.click ∧ a.type = "click") ∨
        (nd = Node.fill ∧ a.type = "fill") := by
      rcases hnd with ⟨h1, h2⟩ | ⟨h1, h2⟩
      · exact Or.inl ⟨h1, hty.trans h2⟩
      · exact Or.inr ⟨h1, hty.trans h2⟩
    refine ⟨[],
      { action := a, success := true, error := none, duration := d2,
        screenshot := some scr2,
        healingUsed := decide (0 < st.healingAttempts) }, ?_⟩
    have e1 : stepN cfg (2 * 0 + 1)
        (⟨nd, st,
          List.replicate 0 (.failed e d scr) ++ .ok d2 scr2 dat :: eo2,
          hoc⟩ : Config) =
        step cfg ⟨nd, st, .ok d2 scr2 dat :: eo2, hoc⟩ := rfl
    rw [e1, step_cf_ok cfg nd st a eo2 hoc d2 scr2 dat hnd1 ha htg]
    refine ⟨rfl, by simp, rfl, by simp, rfl, by simp⟩
  | succ m ih =>
    have hnd1 : (nd = Node.click ∧ a.type = "click") ∨
        (nd = Node.fill ∧ a.type = "fill") := by
      rcases hnd with ⟨h1, h2⟩ | ⟨h1, h2⟩
      · exact Or.inl ⟨h1, hty.trans h2⟩
      · exact Or.inr ⟨h1, hty.trans h2⟩
    have e2 : (2 * (m + 1) + 1 : Nat) = (2 * m + 1) + 1 + 1 := by ring
    rw [e2, stepN_succ, stepN_succ]
    rw [show List.replicate (m + 1) (ExecOutcome.failed e d scr) ++
          ExecOutcome.ok d2 scr2 dat :: eo2 =
        ExecOutcome.failed e d scr ::
          (List.replicate m (ExecOutcome.failed e d scr) ++
            ExecOutcome.ok d2 scr2 dat :: eo2) from by
      simp [List.replicate_succ]]
    rw [step_cf_failed cfg nd st a _ hoc e d scr hnd1 ha htg]
    set st1 : AgentState :=
      { st with
        screenshot := scr
        lastError := some e
        needsHealing := true
        healingAttempts := st.healingAttempts + 1
        results := st.results ++
          [{ action := a, success := false, error := some e, duration := d,
             screenshot := some scr,
             healingUsed := decide (0 < st.healingAttempts) }] } with hst1
    have ha1 : st1.currentAction = some a := ha
    have hlt1 : st1.healingAttempts < cfg.maxRetries := by
      show st.healingAttempts + 1 < cfg.maxRetries
      omega
    rw [step_heal_attempt cfg st1 a _ hoc ha1 hlt1 htg]
    set st2 : AgentState := healNodeAttempt st1 a (hoc.headD .threw) with hst2
    obtain ⟨hat, hnh, hres, h1entry, hhist⟩ :=
      healNodeAttempt_spec st1 a (hoc.headD .threw)
    have hsel1 : ∀ strat sel scr3,
        hoc.headD HealOutcome.threw = .found strat sel scr3 → sel ≠ "" := by
      intro strat sel scr3 hh
      cases hoc with
      | nil => cases hh
      | cons o t =>
        exact hsel strat sel scr3 (by
          rw [show (o :: t).headD HealOutcome.threw = o from rfl] at hh
          rw [← hh]
          exact List.mem_cons_self o t)
    obtain ⟨a2, ha2, hty2, htg2⟩ :=
      healNodeAttempt_action st1 a (hoc.headD .threw) ha1 htg hsel1
    have hat2 : st2.healingAttempts = st.healingAttempts + 2 := by
      rw [hat]
    have hnd2 : (nd = Node.click ∧ a2.type = "click") ∨
        (nd = Node.fill ∧ a2.type = "fill") := by
      rcases hnd with ⟨h1, h2⟩ | ⟨h1, h2⟩
      · exact Or.inl ⟨h1, (hty2.trans hty).trans h2⟩
      · exact Or.inr ⟨h1, (hty2.trans hty).trans h2⟩
    have hedge : healEdge cfg.maxRetries st2 = nd :=
      healEdge_to_cf cfg.maxRetries st2 a2 nd hnd2 hnh (by omega) ha2
    rw [hedge]
    have hsel2 : ∀ strat sel scr3,
        HealOutcome.found strat sel scr3 ∈ hoc.tail → sel ≠ "" :=
      fun strat sel scr3 hm => hsel strat sel scr3 (List.mem_of_mem_tail hm)
    have hb2 : st2.healingAttempts + 2 * m < cfg.maxRetries := by omega
    obtain ⟨fails2, lastR, h_node, h_res, h_len, h_fail, h_last, h_hist⟩ :=
      ih st2 a2 hoc.tail ha2 (hty2.trans hty) htg2 hb2 hsel2
    refine ⟨{ action := a
              success := false
              error := some e
              duration := d
              screenshot := some scr
              healingUsed := decide (0 < st.healingAttempts) } :: fails2,
      lastR, h_node, ?_, by simp [h_len], ?_, h_last, ?_⟩
    · rw [h_res, hres, hst1]
      simp
    · intro r hr
      rcases List.mem_cons.mp hr with hr | hr
      · rw [hr]
      · exact h_fail r hr
    · rw [h_hist, hhist, hst1]
      simp only [List.length_append, List.length_cons, List.length_nil]
      omega

/-- C4 counterexample: a fill step whose action has no target is
dispatched to the fill executor, which never signals needsHealing yet
contributes ZERO StepResults — not exactly one as the claim states. -/
theorem step_without_target_counterexample :
    (step ⟨3, []⟩ noTargetFillConfig).state.needsHealing = false
    ∧ (step ⟨3, []⟩ noTargetFillConfig).node = Node.success
    ∧ (step ⟨3, []⟩ noTargetFillConfig).state.results = []
    ∧ (step ⟨3, []⟩ noTargetFillConfig).state.results.length ≠ 1 := by
  exact ⟨rfl, rfl, rfl, by decide⟩

/-- C4 amended: for a step whose planned action carries a usable target,
every executor (navigate, click, fill, extract) that succeeds without
signalling needsHealing contributes exactly one StepResult and no
HealingAttempt; a click or fill step that goes through m healing cycles
before its executor succeeds contributes exactly m + 1 StepResults — m
failed attempts plus one success — and exactly m HealingAttempt entries
(navigate and extract are never re-dispatched after heal, so they cannot
heal and then succeed); and a step whose action lacks a target
contributes no StepResult at all. -/
theorem step_result_bookkeeping (cfg : RunConfig) :
    (∀ (nd : Node) (ty : String) (st : AgentState) (a : Action) (d : Nat)
        (scr : String) (dat : List (String × Json)) (eo2 : List ExecOutcome)
        (hoc : List HealOutcome),
      ((nd = Node.navigate ∧ ty = "navigate") ∨ (nd = Node.click ∧ ty = "click") ∨
        (nd = Node.fill ∧ ty = "fill") ∨ (nd = Node.extract ∧ ty = "extract")) →
      st.currentAction = some a → a.type = ty → optFalsy a.target = false →
      (step cfg ⟨nd, st, .ok d scr dat :: eo2, hoc⟩).node = Node.success
      ∧ (∃ r, (step cfg ⟨nd, st, .ok d scr dat :: eo2, hoc⟩).state.results
            = st.results ++ [r] ∧ r.success = true)
      ∧ (step cfg ⟨nd, st, .ok d scr dat :: eo2, hoc⟩).state.healingHistory
          = st.healingHistory)
    ∧ (∀ (nd : Node) (ty : String) (m : Nat) (st : AgentState) (a : Action)
        (eo2 : List ExecOutcome) (hoc : List HealOutcome) (e : String) (d : Nat)
        (scr : String) (d2 : Nat) (scr2 : String) (dat : List (String × Json)),
      ((nd = Node.click ∧ ty = "click") ∨ (nd = Node.fill ∧ ty = "fill")) →
      st.currentAction = some a → a.type = ty → optFalsy a.target = false →
      st.healingAttempts + 2 * m < cfg.maxRetries →
      (∀ strat sel scr3, HealOutcome.found strat sel scr3 ∈ hoc → sel ≠ "") →
      ∃ fails lastR,
        (stepN cfg (2 * m + 1)
          ⟨nd, st,
            List.replicate m (.failed e d scr) ++ .ok d2 scr2 dat :: eo2,
            hoc⟩).node = Node.success
        ∧ (stepN cfg (2 * m + 1)
            ⟨nd, st,
              List.replicate m (.failed e d scr) ++ .ok d2 scr2 dat :: eo2,
              hoc⟩).state.results = st.results ++ fails ++ [lastR]
        ∧ fails.length = m
        ∧ (∀ r ∈ fails, r.success = false)
        ∧ lastR.success = true
        ∧ (stepN cfg (2 * m + 1)
            ⟨nd, st,
              List.replicate m (.failed e d scr) ++ .ok d2 scr2 dat :: eo2,
              hoc⟩).state.healingHistory.length
          = st.healingHistory.length + m)
    ∧ (∀ (nd : Node) (st : AgentState) (a : Action) (eoc : List ExecOutcome)
        (hoc : List HealOutcome),
      (nd = Node.navigate ∨ nd = Node.click ∨ nd = Node.fill ∨
        nd = Node.extract) →
      st.currentAction = some a → optFalsy a.target = true →
      (step cfg ⟨nd, st, eoc, hoc⟩).node = Node.success
      ∧ (step cfg ⟨nd, st, eoc, hoc⟩).state.results = st.results
      ∧ (step cfg ⟨nd, st, eoc, hoc⟩).state.needsHealing = false) := by
  refine ⟨?_, ?_, ?_⟩
  · intro nd ty st a d scr dat eo2 hoc hnd ha hty htg
    rcases hnd with ⟨h1, h2⟩ | ⟨h1, h2⟩ | ⟨h1, h2⟩ | ⟨h1, h2⟩ <;> subst h1
    · rw [step_navigate_ok cfg st a eo2 hoc d scr dat ha (hty.trans h2) htg]
      exact ⟨rfl, ⟨_, rfl, rfl⟩, rfl⟩
    · rw [step_click_ok cfg st a eo2 hoc d scr dat ha (hty.trans h2) htg]
      exact ⟨rfl, ⟨_, rfl, rfl⟩, rfl⟩
    · rw [step_fill_ok cfg st a eo2 hoc d scr dat ha (hty.trans h2) htg]
      exact ⟨rfl, ⟨_, rfl, rfl⟩, rfl⟩
    · rw [step_extract_ok cfg st a eo2 hoc d scr dat ha (hty.trans h2) htg]
      exact ⟨rfl, ⟨_, rfl, rfl⟩, rfl⟩
  · intro nd ty m st a eo2 hoc e d scr d2 scr2 dat hnd ha hty htg hb hsel
    exact cf_heal_cycles cfg nd ty hnd m st a eo2 hoc e d scr d2 scr2 dat
      ha hty htg hb hsel
  · intro nd st a eoc hoc hnd ha htg
    rcases hnd with h1 | h1 | h1 | h1 <;> subst h1
    · have hrun := navigateNodeRun_noop st a (nextExec eoc).1 ha htg
      refine ⟨?_, ?_, ?_⟩
      · show execEdge (navigateNodeRun st (nextExec eoc).1) = Node.success
        rw [hrun]
        rfl
      · show (navigateNodeRun st (nextExec eoc).1).results = st.results
        rw [hrun]
      · show (navigateNodeRun st (nextExec eoc).1).needsHealing = false
        rw [hrun]
    · have hrun := clickNodeRun_noop st a (nextExec eoc).1 ha htg
      refine ⟨?_, ?_, ?_⟩
      · show execEdge (clickNodeRun st (nextExec eoc).1) = Node.success
        rw [hrun]
        rfl
      · show (clickNodeRun st (nextExec eoc).1).results = st.results
        rw [hrun]
      · show (clickNodeRun st (nextExec eoc).1).needsHealing = false
        rw [hrun]
    · have hrun := fillNodeRun_noop st a (nextExec eoc).1 ha htg
      refine ⟨?_, ?_, ?_⟩
      · show execEdge (fillNodeRun st (nextExec eoc).1) = Node.success
        rw [hrun]
        rfl
      · show (fillNodeRun st (nextExec eoc).1).results = st.results
        rw [hrun]
      · show (fillNodeRun st (nextExec eoc).1).needsHealing = false
        rw [hrun]
    · have hrun := extractNodeRun_noop st a (nextExec eoc).1 ha htg
      refine ⟨?_, ?_, ?_⟩
      · show execEdge (extractNodeRun st (nextExec eoc).1) = Node.success
        rw [hrun]
        rfl
      · show (extractNodeRun st (nextExec eoc).1).results = st.results
        rw [hrun]
      · show (extractNodeRun st (nextExec eoc).1).needsHealing = false
        rw [hrun]

/-- C4 amended witness: a successful navigate appends one StepResult;
one healing cycle around a fill appends two StepResults and one
HealingAttempt; a target-less fill appends nothing. -/
theorem step_result_bookkeeping_witness :
    (step ⟨3, []⟩ ⟨Node.navigate,
      { initialState with
        currentAction := some ⟨"navigate", some "https://example.org", none⟩ },
      [.ok 1 "s" []], []⟩).node = Node.success
    ∧ (∃ fails lastR,
        (stepN ⟨3, []⟩ (2 * 1 + 1)
          ⟨Node.fill,
            { initialState with currentAction := some ⟨"fill", some "#q", some "v"⟩ },
            List.replicate 1 (.failed "boom" 1 "s1") ++ .ok 2 "s2" [] :: [],
            [.noneFound "s3"]⟩).node = Node.success
        ∧ (stepN ⟨3, []⟩ (2 * 1 + 1)
            ⟨Node.fill,
              { initialState with currentAction := some ⟨"fill", some "#q", some "v"⟩ },
              List.replicate 1 (.failed "boom" 1 "s1") ++ .ok 2 "s2" [] :: [],
              [.noneFound "s3"]⟩).state.results =
            { initialState with
              currentAction := some ⟨"fill", some "#q", some "v"⟩ }.results
              ++ fails ++ [lastR]
        ∧ fails.length = 1
        ∧ (∀ r ∈ fails, r.success = false)
        ∧ lastR.success = true
        ∧ (stepN ⟨3, []⟩ (2 * 1 + 1)
            ⟨Node.fill,
              { initialState with currentAction := some ⟨"fill", some "#q", some "v"⟩ },
              List.replicate 1 (.failed "boom" 1 "s1") ++ .ok 2 "s2" [] :: [],
              [.noneFound "s3"]⟩).state.healingHistory.length =
            { initialState with
              currentAction := some ⟨"fill", some "#q", some "v"⟩ }.healingHistory.length
              + 1)
    ∧ (step ⟨3, []⟩ ⟨Node.fill,
        { initialState with currentAction := some ⟨"fill", none, none⟩ },
        [.ok 1 "s" []], []⟩).state.results =
      ({ initialState with
        currentAction := some ⟨"fill", none, none⟩ } : AgentState).results := by
  have h := step_result_bookkeeping ⟨3, []⟩
  refine ⟨?_, ?_, ?_⟩
  · exact (h.1 Node.navigate "navigate"
      { initialState with
        currentAction := some ⟨"navigate", some "https://example.org", none⟩ }
      ⟨"navigate", some "https://example.org", none⟩ 1 "s" [] [] []
      (Or.inl ⟨rfl, rfl⟩) rfl rfl rfl).1
  · exact h.2.1 Node.fill "fill" 1
      { initialState with currentAction := some ⟨"fill", some "#q", some "v"⟩ }
      ⟨"fill", some "#q", some "v"⟩ [] [.noneFound "s3"] "boom" 1 "s1" 2 "s2" []
      (Or.inr ⟨rfl, rfl⟩) rfl rfl rfl (by decide)
      (by intro strat sel scr3 hmem; simp at hmem)
  · exact (h.2.2 Node.fill
      { initialState with currentAction := some ⟨"fill", none, none⟩ }
      ⟨"fill", none, none⟩ [.ok 1 "s" []] []
      (Or.inr (Or.inr (Or.inl rfl))) rfl rfl).2.1

/-! ## C7: dot-path resolution and the contains/equals/matches graders -/

theorem containsSub_iff (hay needle : List Char) :
    containsSub hay needle = true ↔ needle <:+: hay := by
  induction hay with
  | nil => simp [containsSub, List.infix_nil, List.isEmpty_iff]
  | cons h t ih =>
    simp only [containsSub, Bool.or_eq_true, List.isPrefixOf_iff_prefix, ih,
      List.infix_cons_iff]

/-- C7 counterexample: the string-based equals grader is case-sensitive,
contrary to the claim: "Foo" and "foo" agree after lowering, yet the
equals grade is false. -/
theorem checkEquals_case_sensitive_counterexample :
    checkEquals (some [("name", Json.str "Foo")]) "name" "foo" = false
    ∧ lowerStr "Foo" = lowerStr "foo" := by
  exact ⟨rfl, rfl⟩

/-- C7 amended: gradeResult dispatches contains/equals/matches (with a
non-falsy field and value) to the check functions; those resolve the
dot-path into the extracted data, always fail on an unresolved path,
test case-insensitive substring membership for contains, case-SENSITIVE
equality for string-based equals, and scan array elements for contains
and matches — while equals compares the JSON serialization of the whole
array rather than scanning. -/
theorem graders_path_resolution (rT : String → String → Bool)
    (d : List (String × Json)) (f v : String) :
    (∀ (r : TaskResult), r.success = true → r.data = some d →
      f ≠ "" → v ≠ "" →
      gradeResult rT (some r) ⟨"contains", some f, some v⟩ =
          checkContains (some d) f v
      ∧ gradeResult rT (some r) ⟨"equals", some f, some v⟩ =
          checkEquals (some d) f v
      ∧ gradeResult rT (some r) ⟨"matches", some f, some v⟩ =
          checkMatches rT (some d) f v)
    ∧ (getNestedField d f = none →
        checkContains (some d) f v = false
        ∧ checkEquals (some d) f v = false
        ∧ checkMatches rT (some d) f v = false)
    ∧ (∀ s, getNestedField d f = some (.str s) →
        (checkContains (some d) f v = true ↔
          (lowerStr v).data <:+: (lowerStr s).data)
        ∧ (checkEquals (some d) f v = true ↔ s = v)
        ∧ checkMatches rT (some d) f v = rT v s)
    ∧ (∀ xs, getNestedField d f = some (.arr xs) →
        (checkContains (some d) f v = true ↔
          ∃ item ∈ xs, (lowerStr v).data <:+: (lowerStr (itemText item)).data)
        ∧ (checkMatches rT (some d) f v = true ↔
          ∃ item ∈ xs, rT v (itemText item) = true)
        ∧ (checkEquals (some d) f v = true ↔ stringify (Json.arr xs) = v)) := by
  refine ⟨?_, ?_, ?_, ?_⟩
  · intro r hs hd hf hv
    refine ⟨?_, ?_, ?_⟩ <;>
      simp [gradeResult, hs, hd, optFalsy, hf, hv]
  · intro hn
    simp [checkContains, checkEquals, checkMatches, hn]
  · intro s hsf
    simp only [checkContains, checkEquals, checkMatches, hsf]
    refine ⟨?_, by simp, by trivial⟩
    exact containsSub_iff (lowerStr s).data (lowerStr v).data
  · intro xs hxf
    simp only [checkContains, checkEquals, checkMatches, hxf]
    refine ⟨?_, ?_, by simp⟩
    · rw [List.any_eq_true]
      constructor
      · rintro ⟨item, hm, hc⟩
        exact ⟨item, hm, (containsSub_iff _ _).mp hc⟩
      · rintro ⟨item, hm, hc⟩
        exact ⟨item, hm, (containsSub_iff _ _).mpr hc⟩
    · rw [List.any_eq_true]

/-- C7 amended witness: resolving the path "name" to the string "Foo",
contains is a case-insensitive substring test while equals demands exact
equality, and an unresolved path fails. -/
theorem graders_path_resolution_witness :
    (checkEquals (some [("name", Json.str "Foo")]) "name" "foo" = true ↔
      "Foo" = "foo")
    ∧ checkContains (some [("name", Json.str "Foo")]) "missing" "x" = false := by
  have h := graders_path_resolution (fun _ _ => false)
    [("name", Json.str "Foo")] "name" "foo"
  have h2 := graders_path_resolution (fun _ _ => false)
    [("name", Json.str "Foo")] "missing" "x"
  exact ⟨(h.2.2.1 "Foo" rfl).2.1, (h2.2.1 rfl).1⟩

/-! ## C5: estimatePassAtK -/

theorem estRatio_succ (n c k : Nat) :
    estRatio n c (k + 1) =
      estRatio n c k * (((n : ℚ) - c - k) / ((n : ℚ) - k)) := by
  unfold estRatio
  rw [List.range_succ, List.foldl_append]
  rfl

/-- The running-product loop computes the product over i = 0 .. k-1. -/
theorem estRatio_eq_prod (n c k : Nat) :
    estRatio n c k =
      ∏ i in Finset.range k, (((n : ℚ) - c - i) / ((n : ℚ) - i)) := by
  induction k with
  | zero => simp [estRatio]
  | succ k ih => rw [estRatio_succ, ih, Finset.prod_range_succ]

/-- When fewer than k successes are missing (n - c < k), a zero factor
occurs inside the product, so the product is 0. -/
theorem estProd_zero (n c k : Nat) (hcn : c ≤ n) (hlt : n - c < k) :
    ∏ i in Finset.range k, (((n : ℚ) - c - i) / ((n : ℚ) - i)) = 0 := by
  apply Finset.prod_eq_zero (Finset.mem_range.mpr hlt)
  have hz : (n : ℚ) - c - ((n - c : Nat) : ℚ) = 0 := by
    rw [Nat.cast_sub hcn]
    ring
  rw [hz, zero_div]

theorem estFactor_bounds (n c k i : Nat) (hi : i < k) (hk : k ≤ n)
    (hb : k ≤ n - c) :
    0 ≤ ((n : ℚ) - c - i) / ((n : ℚ) - i)
    ∧ ((n : ℚ) - c - i) / ((n : ℚ) - i) ≤ 1 := by
  have hin : i < n := lt_of_lt_of_le hi hk
  have hden : (0 : ℚ) < (n : ℚ) - i := by
    have : (i : ℚ) < (n : ℚ) := by exact_mod_cast hin
    linarith
  have hci : c + i < n := by omega
  have hnum : (0 : ℚ) ≤ (n : ℚ) - c - i := by
    have : ((c : ℚ) + i) < (n : ℚ) := by exact_mod_cast hci
    linarith
  have hc0 : (0 : ℚ) ≤ (c : ℚ) := by positivity
  constructor
  · exact div_nonneg hnum (le_of_lt hden)
  · rw [div_le_one hden]
    linarith

theorem estProd_nonneg_le_one (n c k : Nat) (hcn : c ≤ n) (hk : k ≤ n) :
    0 ≤ (∏ i in Finset.range k, (((n : ℚ) - c - i) / ((n : ℚ) - i)))
    ∧ (∏ i in Finset.range k, (((n : ℚ) - c - i) / ((n : ℚ) - i))) ≤ 1 := by
  by_cases hb : n - c < k
  · rw [estProd_zero n c k hcn hb]
    norm_num
  · push_neg at hb
    constructor
    · exact Finset.prod_nonneg (fun i hi =>
        (estFactor_bounds n c k i (Finset.mem_range.mp hi) hk hb).1)
    · exact Finset.prod_le_one
        (fun i hi => (estFactor_bounds n c k i (Finset.mem_range.mp hi) hk hb).1)
        (fun i hi => (estFactor_bounds n c k i (Finset.mem_range.mp hi) hk hb).2)

/-- The product is antitone in the success count c. -/
theorem estProd_anti (n c1 c2 k : Nat) (h12 : c1 ≤ c2) (hc2 : c2 ≤ n)
    (hk : k ≤ n) :
    (∏ i in Finset.range k, (((n : ℚ) - c2 - i) / ((n : ℚ) - i)))
      ≤ ∏ i in Finset.range k, (((n : ℚ) - c1 - i) / ((n : ℚ) - i)) := by
  by_cases hb : n - c2 < k
  · rw [estProd_zero n c2 k hc2 hb]
    exact (estProd_nonneg_le_one n c1 k (le_trans h12 hc2) hk).1
  · push_neg at hb
    apply Finset.prod_le_prod
    · intro i hi
      exact (estFactor_bounds n c2 k i (Finset.mem_range.mp hi) hk hb).1
    · intro i hi
      have hden : (0 : ℚ) < (n : ℚ) - i := by
        have : (i : ℚ) < (n : ℚ) := by
          exact_mod_cast lt_of_lt_of_le (Finset.mem_range.mp hi) hk
        linarith
      rw [div_le_div_iff_of_pos_right hden]
      have : (c1 : ℚ) ≤ (c2 : ℚ) := by exact_mod_cast h12
      linarith

/-- C5: the estimator's boundary laws — corrected at n = 0, where the
code returns 0 rather than 1 for estimatePassAtK(n, n, k) — its
degenerate n < k branch, its monotonicity in c, and its running-product
closed form on the general branch. -/
theorem estimatePassAtK_laws (n c k : Nat) :
    estimatePassAtK n 0 k = 0
    ∧ (1 ≤ n → estimatePassAtK n n k = 1)
    ∧ (n < k → estimatePassAtK n c k = if 0 < c then 1 else 0)
    ∧ (∀ c1 c2, c1 ≤ c2 → estimatePassAtK n c1 k ≤ estimatePassAtK n c2 k)
    ∧ (¬ n < k → 0 < c → c < n →
        estimatePassAtK n c k =
          1 - ∏ i in Finset.range k, (((n : ℚ) - c - i) / ((n : ℚ) - i))) := by
  refine ⟨?_, ?_, ?_, ?_, ?_⟩
  · unfold estimatePassAtK
    split_ifs <;> simp_all
  · intro hn
    unfold estimatePassAtK
    split_ifs with h1 h2 h3 h4 <;> first | rfl | omega
  · intro h
    unfold estimatePassAtK
    rw [if_pos h]
  · intro c1 c2 h12
    by_cases hnk : n < k
    · unfold estimatePassAtK
      rw [if_pos hnk, if_pos hnk]
      split_ifs with g1 g2 g3 <;> first | (exfalso; omega) | norm_num
    · have hk : k ≤ n := Nat.le_of_not_lt hnk
      unfold estimatePassAtK
      rw [if_neg hnk, if_neg hnk]
      by_cases hc1 : c1 = 0
      · rw [if_pos hc1]
        split_ifs with g1 g2
        · exact le_refl 0
        · norm_num
        · rw [estRatio_eq_prod]
          have := (estProd_nonneg_le_one n c2 k
            (le_of_lt (Nat.lt_of_not_le g2)) hk).2
          linarith
      · rw [if_neg hc1]
        by_cases hc2n : n ≤ c2
        · rw [if_neg (show ¬ c2 = 0 by omega), if_pos hc2n]
          split_ifs with g1
          · exact le_refl 1
          · rw [estRatio_eq_prod]
            have := (estProd_nonneg_le_one n c1 k
              (le_of_lt (Nat.lt_of_not_le g1)) hk).1
            linarith
        · rw [if_neg (show ¬ c2 = 0 by omega), if_neg hc2n,
            if_neg (show ¬ n ≤ c1 by omega)]
          rw [estRatio_eq_prod, estRatio_eq_prod]
          have := estProd_anti n c1 c2 k h12 (le_of_not_le hc2n) hk
          linarith
  · intro h1 h2 h3
    unfold estimatePassAtK
    rw [if_neg h1, if_neg (show ¬ c = 0 by omega),
      if_neg (Nat.not_le.mpr h3), estRatio_eq_prod]

/-- C5 counterexample: estimatePassAtK(n, n, k) is not 1 for every n and
k — at n = c = 0 (with k = 1 samples requested) the n < k branch returns
0, because c > 0 fails. -/
theorem estimatePassAtK_zero_counterexample :
    estimatePassAtK 0 0 1 = 0 ∧ (0 : ℚ) ≠ 1 := by
  constructor
  · rfl
  · norm_num

/-- C5 witness: boundary and monotonicity laws at concrete points. -/
theorem estimatePassAtK_laws_witness :
    estimatePassAtK 5 5 2 = 1
    ∧ estimatePassAtK 5 1 2 ≤ estimatePassAtK 5 2 2 := by
  have h := estimatePassAtK_laws 5 3 2
  exact ⟨h.2.1 (by decide), h.2.2.2.1 1 2 (by decide)⟩

end Sentinel
